import Mathlib

/-!
Verification of the Quote Retrieval & Ranking Engine of the stock-challenge
repository, as a shallow embedding of its JavaScript sources.

Embedded variants:
* `StockApiYahoo`  — the `StockAPI` module of `js/stock-api.js` (direct Yahoo
  call with a silent mock-price fallback);
* `StockApiCors`   — the `StockAPI` module of the clean CORS-fixed variant
  (price cache with a 60 s TTL, single proxy, classified errors); the same
  cache keying is used by the CORS-free variant;
* `StockApiRotate` — the `StockAPI` module of the proxy-rotation variant
  (shared rotation cursor advanced on every failed attempt);
* `App`            — the refresh / ranking logic of `handleRefreshPrices` and
  the price checks of `handleFormSubmit` in `js/app.js`.

Prices, percentage changes and the `Math.random()` draws are rationals (`ℚ`);
`Date.now()` timestamps are integers (milliseconds).  Network interaction is
abstracted by an explicit outcome value per attempt — transport error, bad
HTTP status, structurally invalid body, or a parsed payload — and the
functions are given the pieces of mutable state they read and write (the
price cache, the rotation cursor) explicitly.
-/

/- The arithmetic core operations on `Rat` are `@[irreducible]` in Batteries;
restore definitional reduction so that concrete runs of the embedded code can
be checked by `decide`. -/
set_option linter.unusedVariables false

attribute [local semireducible] Rat.mul Rat.add Rat.sub Rat.inv Rat.ofScientific

/-- `parseFloat(x.toFixed(2))`: rounding to 2 decimal places.  ECMA-262
specifies `toFixed` as choosing the integer `n` with `n / 10^2` nearest to
`x`, picking the larger `n` on a tie. -/
def round2 (x : ℚ) : ℚ := ((x * 100 + 1/2).floor : ℚ) / 100

/-- JavaScript `a || b` on two optional numeric fields: `a` when it is
present and truthy (nonzero), else `b`. -/
def jsOr (a b : Option ℚ) : Option ℚ :=
  match a with
  | some x => if x = 0 then b else some x
  | none => b

/-- JavaScript `x || 0` on a numeric value (`0` is falsy, so this is the
identity on numbers). -/
def jsOr0 (x : ℚ) : ℚ := if x = 0 then 0 else x

theorem jsOr0_eq_id (x : ℚ) : jsOr0 x = x := by
  unfold jsOr0; split <;> simp_all

theorem ratFloor_eq_intFloor (q : ℚ) : q.floor = ⌊q⌋ := by
  rw [Rat.floor_def', Rat.floor_def]

theorem round2_eq (x : ℚ) : round2 x = ((⌊x * 100 + 1/2⌋ : ℚ) / 100) := by
  rw [round2, ratFloor_eq_intFloor]

theorem round2_nonneg (x : ℚ) (hx : 0 ≤ x) : 0 ≤ round2 x := by
  rw [round2_eq]
  have h1 : (0 : ℤ) ≤ ⌊x * 100 + 1/2⌋ := by
    rw [Int.le_floor]
    push_cast
    linarith
  have h2 : (0 : ℚ) ≤ (⌊x * 100 + 1/2⌋ : ℚ) := by exact_mod_cast h1
  linarith

theorem round2_pos (x : ℚ) (hx : 1/200 ≤ x) : 0 < round2 x := by
  rw [round2_eq]
  have h1 : (1 : ℤ) ≤ ⌊x * 100 + 1/2⌋ := by
    rw [Int.le_floor]
    push_cast
    linarith
  have h2 : (1 : ℚ) ≤ (⌊x * 100 + 1/2⌋ : ℚ) := by exact_mod_cast h1
  linarith

namespace StockApiCors

/-- Price cache of the CORS-fixed variant: the JavaScript `Map` from string
keys to `(price, timestamp)` records, modelled as an association list where
`set` prepends and `get` takes the first match (observationally the same as
the overwrite-on-set behaviour of the `Map`). -/
abbrev Cache := List (String × ℚ × ℤ)

/-- Cache key template of `getCachedPrice` / `cachePrice`: the raw
interpolation of `symbol` and `exchange` (no case normalization is applied
anywhere on the cache path). -/
def cacheKey (symbol exchange : String) : String := symbol ++ "-" ++ exchange

/-- First entry stored under `key`, i.e. `priceCache.get(key)`. -/
def cacheFind (cache : Cache) (key : String) : Option (ℚ × ℤ) :=
  (cache.find? (fun e => e.1 == key)).map (fun e => e.2)

/-- `CACHE_DURATION = 60000` (one minute, in milliseconds). -/
def CACHE_DURATION : ℤ := 60000

/-- `getCachedPrice(symbol, exchange)`: return the cached price when an entry
exists and `Date.now() - cached.timestamp < CACHE_DURATION`, else `null`. -/
def getCachedPrice (cache : Cache) (symbol exchange : String) (now : ℤ) : Option ℚ :=
  match cacheFind cache (cacheKey symbol exchange) with
  | some pt => if now - pt.2 < CACHE_DURATION then some pt.1 else none
  | none => none

/-- `cachePrice(symbol, exchange, price)`: `priceCache.set(key, {price,
timestamp: Date.now()})`. -/
def cachePrice (cache : Cache) (symbol exchange : String) (price : ℚ) (now : ℤ) : Cache :=
  (cacheKey symbol exchange, price, now) :: cache

/-- Parsed `data.chart.result[0].meta` of a structurally valid response body. -/
structure ChartMeta where
  regularMarketPrice : Option ℚ
  previousClose : Option ℚ
deriving DecidableEq

/-- Outcome of the single network attempt of this variant: the attempt may
throw (timeout / network failure), return a non-ok status, return a body
without `chart.result[0].meta`, or produce a parsed `meta`. -/
inductive FetchOutcome where
  | timeoutOrNetworkError
  | httpError (status : Nat)
  | invalidStructure
  | payload (meta : ChartMeta)
deriving DecidableEq

/-- Classified error thrown after the attempt fails: the thrown message is a
fixed template instantiated with the symbol and the exchange (see
`quoteErrorMessage`). -/
structure QuoteError where
  symbol : String
  exchange : String
deriving DecidableEq

/-- Message template of the thrown `Error`. -/
def quoteErrorMessage (e : QuoteError) : String :=
  "Unable to fetch price for " ++ e.symbol ++ " on " ++ e.exchange ++
    ". Please verify the symbol is correct and actively traded. " ++
    "If the issue persists, try again in a few moments."

/-- Value produced by one call: the returned price, or the thrown classified
error. -/
inductive QuoteResult where
  | price (value : ℚ)
  | thrown (error : QuoteError)
deriving DecidableEq

/-- Result of one `fetchStockPrice` call: the returned price or thrown
classified error, the cache after the call, and whether the network was
touched. -/
structure FetchResult where
  result : QuoteResult
  cache : Cache
  networkUsed : Bool
deriving DecidableEq

/-- `fetchStockPrice(symbol, exchange)` of the CORS-fixed variant: probe the
cache with the raw key first; otherwise run the single proxied attempt,
resolve `meta.regularMarketPrice || meta.previousClose`, reject a missing or
non-positive price (`!price || price <= 0`), and on success round to two
decimals, write the cache and return.  Every failure is rethrown as the
classified error; nothing is cached on failure. -/
def fetchStockPrice (cache : Cache) (symbol exchange : String) (now : ℤ)
    (outcome : FetchOutcome) : FetchResult :=
  match getCachedPrice cache symbol exchange now with
  | some cached => ⟨.price cached, cache, false⟩
  | none =>
    match outcome with
    | .payload meta =>
      match jsOr meta.regularMarketPrice meta.previousClose with
      | some price =>
        if 0 < price then
          let finalPrice := round2 price
          ⟨.price finalPrice, cachePrice cache symbol exchange finalPrice now, true⟩
        else ⟨.thrown ⟨symbol, exchange⟩, cache, true⟩
      | none => ⟨.thrown ⟨symbol, exchange⟩, cache, true⟩
    | _ => ⟨.thrown ⟨symbol, exchange⟩, cache, true⟩

/-- An attempt outcome on which the `try` block of `fetchStockPrice` throws:
any transport/status/structure failure, or a payload whose resolved price is
missing or not strictly positive. -/
def outcomeFails (outcome : FetchOutcome) : Bool :=
  match outcome with
  | .payload meta =>
    match jsOr meta.regularMarketPrice meta.previousClose with
    | some price => decide (price ≤ 0)
    | none => true
  | _ => true

end StockApiCors


/-- JavaScript `s.toUpperCase()` on the ASCII symbols this application
handles: uppercase each character. -/
def toUpperCase (s : String) : String := String.mk (s.data.map Char.toUpper)

namespace StockApiYahoo

/-- The hardcoded `mockPrices` table of `getMockPrice` in `js/stock-api.js`. -/
def mockPrices : List (String × ℚ) :=
  [("RELIANCE", 2450.50), ("TCS", 3680.20), ("INFY", 1450.00), ("HDFCBANK", 1650.75),
   ("TATAMOTORS", 920.30), ("WIPRO", 445.60), ("ITC", 425.80), ("SBIN", 610.25),
   ("BHARTIARTL", 890.40), ("HINDUNILVR", 2380.65), ("ICICIBANK", 985.30),
   ("KOTAKBANK", 1720.90), ("LT", 3150.20), ("AXISBANK", 1045.70), ("MARUTI", 9850.40)]

/-- `getMockPrice(symbol)`: `base = mockPrices[symbol.toUpperCase()] || (r1 *
1000 + 500)` (every table entry is nonzero, hence truthy), then `base * (1 +
(r2 - 0.5) * 0.05)` rounded to two decimals.  `r1` and `r2` are the two
`Math.random()` draws, each in `[0, 1)`. -/
def getMockPrice (symbol : String) (r1 r2 : ℚ) : ℚ :=
  let base : ℚ :=
    match mockPrices.lookup (toUpperCase symbol) with
    | some v => v
    | none => r1 * 1000 + 500
  round2 (base * (1 + (r2 - 1/2) * (5/100)))

/-- Outcome of the single direct Yahoo request of `js/stock-api.js`: the
`fetch` may throw, return a non-ok status (then `throw` inside the `try`),
return a body without `chart.result[0]`, or a chart result whose
`meta.regularMarketPrice` is the given optional number. -/
inductive ApiOutcome where
  | networkError
  | badStatus
  | missingResult
  | chartResult (regularMarketPrice : Option ℚ)
deriving DecidableEq

/-- `fetchStockPrice(symbol, exchange)` of `js/stock-api.js`: on a chart
result carrying a truthy positive `regularMarketPrice` return it rounded to
two decimals; on every other path — error thrown, bad status, missing
result, missing or non-positive price — fall back to `getMockPrice`.  The
whole body is inside `try/catch`, so the function always resolves with a
number and never rejects.  `exchange` only selects the `.NS`/`.BO` URL
suffix. -/
def fetchStockPrice (symbol exchange : String) (outcome : ApiOutcome) (r1 r2 : ℚ) : ℚ :=
  match outcome with
  | .chartResult priceField =>
    match priceField with
    | some price => if 0 < price then round2 price else getMockPrice symbol r1 r2
    | none => getMockPrice symbol r1 r2
  | _ => getMockPrice symbol r1 r2

end StockApiYahoo

namespace StockApiRotate

/-- The `CORS_PROXIES` list of the proxy-rotation variant (two proxies). -/
def CORS_PROXIES : List String :=
  ["https://api.allorigins.win/raw?url=", "https://corsproxy.io/?"]

/-- `getCorsProxy()`: index of the route used by the current attempt,
`currentProxyIndex % CORS_PROXIES.length`. -/
def getCorsProxy (currentProxyIndex : Nat) : Nat :=
  currentProxyIndex % CORS_PROXIES.length

/-- `switchProxy()`: advance the shared rotation cursor (called on every
failed attempt). -/
def switchProxy (currentProxyIndex : Nat) : Nat := currentProxyIndex + 1

/-- The attempt loop of `fetchStockPrice` in the proxy-rotation variant,
parameterised by which routes fail.  Arguments: remaining attempts (the loop
runs `CORS_PROXIES.length` times) and the shared cursor.  Returns the route
that succeeded (or `none` when every attempt failed and the classified error
is thrown), the cursor after the call, and the routes attempted in order. -/
def attemptLoop (routeFails : Nat → Bool) : Nat → Nat → Option Nat × Nat × List Nat
  | 0, currentProxyIndex => (none, currentProxyIndex, [])
  | n + 1, currentProxyIndex =>
    let route := getCorsProxy currentProxyIndex
    if routeFails route then
      let next := attemptLoop routeFails n (switchProxy currentProxyIndex)
      (next.1, next.2.1, route :: next.2.2)
    else (some route, currentProxyIndex, [route])

/-- `fetchStockPrice(symbol, exchange)` of the proxy-rotation variant,
abstracted to its route-selection behaviour: up to `CORS_PROXIES.length`
attempts starting at the shared cursor, advancing the cursor on each
failure. -/
def fetchStockPrice (routeFails : Nat → Bool) (currentProxyIndex : Nat) :
    Option Nat × Nat × List Nat :=
  attemptLoop routeFails CORS_PROXIES.length currentProxyIndex

end StockApiRotate


namespace App

/-- Participant record as read by `handleRefreshPrices` (every participant is
created by `handleFormSubmit` with numeric `lastFridayPrice`, `cmp` and
`change`). -/
structure Participant where
  id : Nat
  symbol : String
  exchange : String
  lastFridayPrice : ℚ
  cmp : ℚ
  change : ℚ
deriving DecidableEq

/-- One element of the `updates` array built by `handleRefreshPrices`. -/
structure Update where
  id : Nat
  cmp : ℚ
  change : ℚ
  success : Bool
deriving DecidableEq

/-- One element of the `rankedUpdates` array (an `Update` plus `rank`). -/
structure RankedUpdate where
  id : Nat
  cmp : ℚ
  change : ℚ
  success : Bool
  rank : Nat
deriving DecidableEq

/-- Body of the per-participant callback in `handleRefreshPrices`: on a
resolved price, `change = p.lastFridayPrice ? ((newPrice - p.lastFridayPrice)
/ p.lastFridayPrice) * 100 : 0` rounded via `+change.toFixed(2)`; on a
rejected fetch, keep `p.cmp || 0` and `p.change || 0` with `success: false`. -/
def refreshUpdate (quote : Option ℚ) (p : Participant) : Update :=
  match quote with
  | some newPrice =>
    { id := p.id
      cmp := newPrice
      change := round2 (if p.lastFridayPrice = 0 then 0
                        else (newPrice - p.lastFridayPrice) / p.lastFridayPrice * 100)
      success := true }
  | none => { id := p.id, cmp := jsOr0 p.cmp, change := jsOr0 p.change, success := false }

/-- The `updates` array: `Promise.all(participants.map(async p => ...))`,
which yields exactly one element per participant in input order.  `quotes`
gives the fetch outcome of each participant (`none` = the fetch rejected). -/
def batchUpdates (participants : List Participant) (quotes : Nat → Option ℚ) : List Update :=
  participants.map (fun p => refreshUpdate (quotes p.id) p)

/-- One insertion step of the stable descending sort. -/
def sortInsert (u : Update) : List Update → List Update
  | [] => [u]
  | v :: rest => if v.change ≤ u.change then u :: v :: rest else v :: sortInsert u rest

/-- `updates.sort((a, b) => b.change - a.change)`: Array.prototype.sort is
stable (ES2019), and a stable sort under a fixed comparator has exactly one
possible output — realised here by stable insertion: an element is placed
before the first element whose `change` does not exceed its own, so elements
with equal `change` keep their input order. -/
def sortByChangeDesc : List Update → List Update
  | [] => []
  | u :: rest => sortInsert u (sortByChangeDesc rest)

/-- `updates.map((update, index) => ({...update, rank: index + 1}))`,
starting from index `i`. -/
def assignRanks : Nat → List Update → List RankedUpdate
  | _, [] => []
  | i, u :: rest => ⟨u.id, u.cmp, u.change, u.success, i + 1⟩ :: assignRanks (i + 1) rest

/-- The `rankedUpdates` array: sort by `change` descending, then attach
`rank = index + 1`. -/
def rankedUpdates (updates : List Update) : List RankedUpdate :=
  assignRanks 0 (sortByChangeDesc updates)

/-- The full ranking step of `handleRefreshPrices` (named `computeUpdates` by the spec): per-participant updates, stable descending sort, dense
ranks `1..N`. -/
def computeUpdates (participants : List Participant) (quotes : Nat → Option ℚ) :
    List RankedUpdate :=
  rankedUpdates (batchUpdates participants quotes)

/-- Outcome of the price validation in `handleFormSubmit`. -/
inductive SubmitCheck where
  | fetchFailed
  | invalidPrice
  | accepted (price : ℚ)
deriving DecidableEq

/-- The two guards of `handleFormSubmit` around the fetched price: the
`catch` branch for a rejected fetch, then `if (!price || price <= 0)`. -/
def handleSubmitPrice (fetchResult : Except Unit ℚ) : SubmitCheck :=
  match fetchResult with
  | .error _ => .fetchFailed
  | .ok price => if 0 < price then .accepted price else .invalidPrice

end App


namespace App

theorem sortInsert_perm (u : Update) (l : List Update) : List.Perm (sortInsert u l) (u :: l) := by
  induction l with
  | nil => exact List.Perm.refl _
  | cons v rest ih =>
    rw [sortInsert]
    split
    · exact List.Perm.refl _
    · exact (ih.cons v).trans (List.Perm.swap u v rest)

theorem sortByChangeDesc_perm (l : List Update) : List.Perm (sortByChangeDesc l) l := by
  induction l with
  | nil => exact List.Perm.refl _
  | cons u rest ih => exact (sortInsert_perm u _).trans (ih.cons u)

theorem length_sortByChangeDesc (l : List Update) :
    (sortByChangeDesc l).length = l.length :=
  (sortByChangeDesc_perm l).length_eq

theorem mem_sortInsert {w u : Update} {l : List Update} :
    w ∈ sortInsert u l ↔ w = u ∨ w ∈ l :=
  (sortInsert_perm u l).mem_iff.trans (List.mem_cons)

theorem pairwise_sortInsert {u : Update} {l : List Update}
    (h : l.Pairwise (fun a b => b.change ≤ a.change)) :
    (sortInsert u l).Pairwise (fun a b => b.change ≤ a.change) := by
  induction l with
  | nil => simp [sortInsert]
  | cons v rest ih =>
    rw [List.pairwise_cons] at h
    obtain ⟨hv, hrest⟩ := h
    rw [sortInsert]
    split
    · next hle =>
      refine List.pairwise_cons.mpr ⟨?_, List.pairwise_cons.mpr ⟨hv, hrest⟩⟩
      intro w hw
      rcases List.mem_cons.mp hw with rfl | hw
      · exact hle
      · exact le_trans (hv w hw) hle
    · next hgt =>
      refine List.pairwise_cons.mpr ⟨?_, ih hrest⟩
      intro w hw
      rcases mem_sortInsert.mp hw with rfl | hw
      · exact le_of_lt (lt_of_not_le hgt)
      · exact hv w hw

theorem pairwise_sortByChangeDesc (l : List Update) :
    (sortByChangeDesc l).Pairwise (fun a b => b.change ≤ a.change) := by
  induction l with
  | nil => simp [sortByChangeDesc]
  | cons u rest ih => exact pairwise_sortInsert ih

theorem filter_sortInsert (u : Update) (l : List Update) (c : ℚ) :
    (sortInsert u l).filter (fun v => v.change == c)
      = if u.change = c then u :: l.filter (fun v => v.change == c)
        else l.filter (fun v => v.change == c) := by
  induction l with
  | nil =>
    rw [sortInsert]
    by_cases hu : u.change = c
    · simp [hu, List.filter]
    · simp [hu, List.filter, beq_eq_false_iff_ne.mpr hu]
  | cons v rest ih =>
    rw [sortInsert]
    split
    · next hle =>
      by_cases hu : u.change = c
      · simp [List.filter_cons, hu]
      · simp [List.filter_cons, beq_eq_false_iff_ne.mpr hu, hu]
    · next hgt =>
      have huv : u.change < v.change := lt_of_not_le hgt
      by_cases hu : u.change = c
      · have hv : v.change ≠ c := by
          intro hv
          exact absurd (hv.trans hu.symm) (ne_of_gt huv)
        simp [List.filter_cons, beq_eq_false_iff_ne.mpr hv, ih, hu]
      · by_cases hv : v.change = c
        · simp [List.filter_cons, beq_iff_eq.mpr hv, ih, hu, hv]
        · simp [List.filter_cons, beq_eq_false_iff_ne.mpr hv, ih, hu, hv]

theorem filter_sortByChangeDesc (l : List Update) (c : ℚ) :
    (sortByChangeDesc l).filter (fun v => v.change == c)
      = l.filter (fun v => v.change == c) := by
  induction l with
  | nil => rfl
  | cons u rest ih =>
    rw [sortByChangeDesc, filter_sortInsert]
    by_cases hu : u.change = c
    · simp [List.filter_cons, hu, ih]
    · simp [List.filter_cons, beq_eq_false_iff_ne.mpr hu, hu, ih]

theorem map_rank_assignRanks (l : List Update) :
    ∀ i, (assignRanks i l).map (fun r => r.rank) = List.range' (i + 1) l.length := by
  induction l with
  | nil => intro i; rfl
  | cons u rest ih =>
    intro i
    rw [assignRanks, List.length_cons, List.range'_succ, List.map_cons, ih]

theorem rank_mem_assignRanks (l : List Update) :
    ∀ i r, r ∈ assignRanks i l → i + 1 ≤ r.rank := by
  induction l with
  | nil => intro i r hr; cases hr
  | cons u rest ih =>
    intro i r hr
    rcases List.mem_cons.mp hr with rfl | hr
    · exact le_refl _
    · exact le_trans (Nat.le_succ _) (ih (i + 1) r hr)

theorem exists_mem_assignRanks (l : List Update) :
    ∀ i u, u ∈ l → ∃ r ∈ assignRanks i l,
      r.id = u.id ∧ r.cmp = u.cmp ∧ r.change = u.change ∧ i + 1 ≤ r.rank := by
  induction l with
  | nil => intro i u hu; cases hu
  | cons v rest ih =>
    intro i u hu
    rcases List.mem_cons.mp hu with rfl | hu
    · exact ⟨⟨u.id, u.cmp, u.change, u.success, i + 1⟩, List.mem_cons_self _ _,
        rfl, rfl, rfl, le_refl _⟩
    · obtain ⟨r, hmem, hid, hcmp, hchange, hrank⟩ := ih (i + 1) u hu
      exact ⟨r, List.mem_cons_of_mem _ hmem, hid, hcmp, hchange,
        le_trans (Nat.le_succ _) hrank⟩

end App

theorem round2_zero : round2 0 = 0 := by decide

/-- C2: the ranking step sorts by `change` descending with a stable tie-break
(the per-key subsequences of the sorted output equal those of the input, so
equal `change` values retain their relative input order), assigns ranks
`1..N` in sorted order (so rank `0` never occurs in the output), and is
deterministic; on changes `[5.2, 5.2, 1.0]` in input order the ranks are
`1, 2, 3`. -/
theorem claim2_ranking_stable_dense_deterministic :
    (∀ us : List App.Update,
        (App.rankedUpdates us).map (fun r => r.rank) = List.range' 1 us.length)
    ∧ (∀ (us : List App.Update) (r : App.RankedUpdate), r ∈ App.rankedUpdates us → 0 < r.rank)
    ∧ (∀ us : List App.Update,
        (App.sortByChangeDesc us).Pairwise (fun a b => b.change ≤ a.change))
    ∧ (∀ (us : List App.Update) (c : ℚ),
        (App.sortByChangeDesc us).filter (fun v => v.change == c)
          = us.filter (fun v => v.change == c))
    ∧ (∀ (ps : List App.Participant) (quotes : Nat → Option ℚ),
        App.computeUpdates ps quotes = App.computeUpdates ps quotes)
    ∧ (App.rankedUpdates [⟨1, 0, 5.2, true⟩, ⟨2, 0, 5.2, true⟩, ⟨3, 0, 1.0, true⟩]
        = [⟨1, 0, 5.2, true, 1⟩, ⟨2, 0, 5.2, true, 2⟩, ⟨3, 0, 1.0, true, 3⟩]) := by
  refine ⟨?_, ?_, App.pairwise_sortByChangeDesc, App.filter_sortByChangeDesc,
    fun ps quotes => rfl, by decide⟩
  · intro us
    rw [App.rankedUpdates, App.map_rank_assignRanks, App.length_sortByChangeDesc]
  · intro us r hr
    exact Nat.lt_of_lt_of_le Nat.zero_lt_one (App.rank_mem_assignRanks _ 0 r hr)

/-- C2 witness: rank positivity applied to the first ranked update of the
concrete tie-break example. -/
theorem claim2_ranking_stable_dense_deterministic_witness :
    0 < (⟨1, 0, 5.2, true, 1⟩ : App.RankedUpdate).rank :=
  claim2_ranking_stable_dense_deterministic.2.1
    [⟨1, 0, 5.2, true⟩, ⟨2, 0, 5.2, true⟩, ⟨3, 0, 1.0, true⟩]
    ⟨1, 0, 5.2, true, 1⟩ (by decide)

/-- C5: the batch refresh produces exactly one result per request, in input
order (the i-th result is the per-participant update of the i-th
participant), each element independently carrying success (`success = true`
iff the fetch resolved) — individual failures are absorbed by the per-item
`catch` and never escalate, as `batchUpdates` is total. -/
theorem claim5_batch_one_result_per_request_in_order :
    (∀ (ps : List App.Participant) (quotes : Nat → Option ℚ),
        (App.batchUpdates ps quotes).length = ps.length)
    ∧ (∀ (ps : List App.Participant) (quotes : Nat → Option ℚ) (i : Nat),
        (App.batchUpdates ps quotes)[i]?
          = (ps[i]?).map (fun p => App.refreshUpdate (quotes p.id) p))
    ∧ (∀ (quote : Option ℚ) (p : App.Participant), (App.refreshUpdate quote p).id = p.id)
    ∧ (∀ (quote : Option ℚ) (p : App.Participant),
        (App.refreshUpdate quote p).success = quote.isSome) := by
  refine ⟨fun ps quotes => ?_, fun ps quotes i => ?_, fun quote p => ?_, fun quote p => ?_⟩
  · simp [App.batchUpdates]
  · simp [App.batchUpdates]
  · cases quote <;> rfl
  · cases quote <;> rfl

/-- C6: a participant whose fetch failed keeps its previous `cmp` and
`change` verbatim (`x || 0` is the identity on numeric fields), is not
dropped, and still occupies a rank slot (rank ≥ 1) using its last-known
values; the end-to-end scenario of the spec evaluates exactly as stated. -/
theorem claim6_failed_fetch_keeps_previous :
    (∀ (quotes : Nat → Option ℚ) (p : App.Participant), quotes p.id = none →
        App.refreshUpdate (quotes p.id) p
          = { id := p.id, cmp := p.cmp, change := p.change, success := false })
    ∧ (∀ (ps : List App.Participant) (quotes : Nat → Option ℚ) (p : App.Participant),
        p ∈ ps →
        ∃ r ∈ App.computeUpdates ps quotes,
          r.id = p.id ∧ r.cmp = (App.refreshUpdate (quotes p.id) p).cmp
            ∧ r.change = (App.refreshUpdate (quotes p.id) p).change ∧ 1 ≤ r.rank)
    ∧ (App.computeUpdates
        [⟨1, "A", "NSE", 100, 100, 0⟩, ⟨2, "B", "NSE", 200, 200, 0⟩]
        (fun i => if i = 1 then some 110 else none)
      = [⟨1, 110, 10, true, 1⟩, ⟨2, 200, 0, false, 2⟩]) := by
  refine ⟨fun quotes p hq => ?_, fun ps quotes p hp => ?_, by decide⟩
  · rw [hq, App.refreshUpdate]
    simp [jsOr0_eq_id]
  · have hu : App.refreshUpdate (quotes p.id) p ∈ App.batchUpdates ps quotes :=
      List.mem_map_of_mem _ hp
    have hs : App.refreshUpdate (quotes p.id) p
        ∈ App.sortByChangeDesc (App.batchUpdates ps quotes) :=
      (App.sortByChangeDesc_perm _).mem_iff.mpr hu
    obtain ⟨r, hmem, hid, hcmp, hchange, hrank⟩ :=
      App.exists_mem_assignRanks _ 0 _ hs
    refine ⟨r, hmem, ?_, hcmp, hchange, hrank⟩
    rw [hid]
    cases hq : quotes p.id <;> rfl

/-- C6 witness: the failed participant of the end-to-end scenario keeps
`cmp = 200` and `change = 0` verbatim. -/
theorem claim6_failed_fetch_keeps_previous_witness :
    App.refreshUpdate ((fun i => if i = 1 then some (110:ℚ) else none) 2)
        ⟨2, "B", "NSE", 200, 200, 0⟩
      = { id := 2, cmp := 200, change := 0, success := false } :=
  claim6_failed_fetch_keeps_previous.1
    (fun i => if i = 1 then some (110:ℚ) else none) ⟨2, "B", "NSE", 200, 200, 0⟩ rfl

/-- C7: a successful quote for a participant with `lastFridayPrice = 0`
yields `change = 0` (no division is attempted; the value is an ordinary
rational, not an infinity or NaN), and otherwise `change` is exactly
`(newPrice - lastFridayPrice) / lastFridayPrice * 100` rounded to two
decimal places. -/
theorem claim7_zero_division_safety :
    (∀ (p : App.Participant) (newPrice : ℚ), p.lastFridayPrice = 0 →
        App.refreshUpdate (some newPrice) p
          = { id := p.id, cmp := newPrice, change := 0, success := true })
    ∧ (∀ (p : App.Participant) (newPrice : ℚ), p.lastFridayPrice ≠ 0 →
        App.refreshUpdate (some newPrice) p
          = { id := p.id, cmp := newPrice,
              change := round2 ((newPrice - p.lastFridayPrice) / p.lastFridayPrice * 100),
              success := true }) := by
  refine ⟨fun p newPrice h0 => ?_, fun p newPrice h0 => ?_⟩
  · rw [App.refreshUpdate]
    simp [h0, round2_zero]
  · rw [App.refreshUpdate]
    simp [h0]

/-- C7 witness: a participant with `lastFridayPrice = 0` gets `change = 0`
from a successful quote of 75. -/
theorem claim7_zero_division_safety_witness :
    App.refreshUpdate (some 75) ⟨1, "A", "NSE", 0, 50, 0⟩
      = { id := 1, cmp := 75, change := 0, success := true } :=
  claim7_zero_division_safety.1 ⟨1, "A", "NSE", 0, 50, 0⟩ 75 rfl

namespace StockApiCors

theorem cacheFind_cachePrice (cache : Cache) (symbol exchange : String) (price : ℚ) (t : ℤ) :
    cacheFind (cachePrice cache symbol exchange price t) (cacheKey symbol exchange)
      = some (price, t) := by
  simp [cacheFind, cachePrice, List.find?]

theorem networkUsed_of_miss (cache : Cache) (symbol exchange : String) (now : ℤ)
    (outcome : FetchOutcome) (hmiss : getCachedPrice cache symbol exchange now = none) :
    (fetchStockPrice cache symbol exchange now outcome).networkUsed = true := by
  simp only [fetchStockPrice, hmiss]
  cases outcome with
  | payload meta =>
    cases hj : jsOr meta.regularMarketPrice meta.previousClose with
    | some p => by_cases h0 : 0 < p <;> simp [hj, h0]
    | none => simp [hj]
  | timeoutOrNetworkError => rfl
  | httpError status => rfl
  | invalidStructure => rfl

theorem fetch_fail_classified (cache : Cache) (symbol exchange : String) (now : ℤ)
    (outcome : FetchOutcome) (hmiss : getCachedPrice cache symbol exchange now = none)
    (hfail : outcomeFails outcome = true) :
    fetchStockPrice cache symbol exchange now outcome
      = ⟨.thrown ⟨symbol, exchange⟩, cache, true⟩ := by
  simp only [fetchStockPrice, hmiss]
  cases outcome with
  | payload meta =>
    rw [outcomeFails] at hfail
    cases hj : jsOr meta.regularMarketPrice meta.previousClose with
    | some p =>
      rw [hj] at hfail
      have hp : p ≤ 0 := of_decide_eq_true hfail
      simp [hj, not_lt.mpr hp]
    | none => simp [hj]
  | timeoutOrNetworkError => rfl
  | httpError status => rfl
  | invalidStructure => rfl

end StockApiCors

/-- C3: a cache entry older than the 60-second TTL is never returned — a
price cached at time `T` is served from the cache with no network activity
at `T + 59s`, a query at `T + 61s` goes back to the network, and in general
`getCachedPrice` only ever returns an entry younger than `CACHE_DURATION`. -/
theorem claim3_cache_ttl :
    (∀ (cache : StockApiCors.Cache) (symbol exchange : String) (price : ℚ) (t : ℤ)
        (outcome : StockApiCors.FetchOutcome),
        StockApiCors.fetchStockPrice (StockApiCors.cachePrice cache symbol exchange price t)
            symbol exchange (t + 59000) outcome
          = ⟨.price price, StockApiCors.cachePrice cache symbol exchange price t, false⟩)
    ∧ (∀ (cache : StockApiCors.Cache) (symbol exchange : String) (price : ℚ) (t : ℤ)
        (outcome : StockApiCors.FetchOutcome),
        (StockApiCors.fetchStockPrice (StockApiCors.cachePrice cache symbol exchange price t)
            symbol exchange (t + 61000) outcome).networkUsed = true)
    ∧ (∀ (cache : StockApiCors.Cache) (symbol exchange : String) (now : ℤ) (p : ℚ),
        StockApiCors.getCachedPrice cache symbol exchange now = some p →
        ∃ ts, StockApiCors.cacheFind cache (StockApiCors.cacheKey symbol exchange)
            = some (p, ts) ∧ now - ts < StockApiCors.CACHE_DURATION) := by
  refine ⟨?_, ?_, ?_⟩
  · intro cache symbol exchange price t outcome
    have hget : StockApiCors.getCachedPrice
        (StockApiCors.cachePrice cache symbol exchange price t) symbol exchange (t + 59000)
        = some price := by
      simp only [StockApiCors.getCachedPrice, StockApiCors.cacheFind_cachePrice,
        StockApiCors.CACHE_DURATION]
      rw [if_pos (by omega)]
    simp only [StockApiCors.fetchStockPrice, hget]
  · intro cache symbol exchange price t outcome
    have hget : StockApiCors.getCachedPrice
        (StockApiCors.cachePrice cache symbol exchange price t) symbol exchange (t + 61000)
        = none := by
      simp only [StockApiCors.getCachedPrice, StockApiCors.cacheFind_cachePrice,
        StockApiCors.CACHE_DURATION]
      rw [if_neg (by omega)]
    exact StockApiCors.networkUsed_of_miss _ _ _ _ _ hget
  · intro cache symbol exchange now p hp
    rw [StockApiCors.getCachedPrice] at hp
    cases hf : StockApiCors.cacheFind cache (StockApiCors.cacheKey symbol exchange) with
    | some pt =>
      obtain ⟨pv, pts⟩ := pt
      rw [hf] at hp
      dsimp only at hp
      by_cases hlt : now - pts < StockApiCors.CACHE_DURATION
      · rw [if_pos hlt] at hp
        obtain rfl : pv = p := Option.some_inj.mp hp
        exact ⟨pts, rfl, hlt⟩
      · rw [if_neg hlt] at hp
        simp at hp
    | none => rw [hf] at hp; simp at hp

/-- C3 witness: the TTL invariant applied to a fresh entry cached at `T = 0`
and queried at `T + 59s`. -/
theorem claim3_cache_ttl_witness :
    ∃ ts, StockApiCors.cacheFind (StockApiCors.cachePrice [] "TCS" "NSE" 100 0)
        (StockApiCors.cacheKey "TCS" "NSE") = some (100, ts)
      ∧ 59000 - ts < StockApiCors.CACHE_DURATION :=
  claim3_cache_ttl.2.2 (StockApiCors.cachePrice [] "TCS" "NSE" 100 0)
    "TCS" "NSE" 59000 100 (by decide)

namespace StockApiCors

theorem cacheKey_case_ne (ex : String) :
    cacheKey "reliance" ex ≠ cacheKey "RELIANCE" ex := by
  intro h
  have hd := congrArg String.data h
  simp only [cacheKey, String.data_append] at hd
  have h1 : ("reliance" : String).data ++ ("-" : String).data
      = ("RELIANCE" : String).data ++ ("-" : String).data :=
    List.append_cancel_right hd
  have h2 : ("reliance" : String).data = ("RELIANCE" : String).data :=
    List.append_cancel_right h1
  exact absurd h2 (by decide)

end StockApiCors

/-- C4 counterexample: `fetchStockPrice("reliance", "NSE")` at time 0 caches
its price, yet a call for `"RELIANCE"` on the same exchange one second later
(well inside the TTL) misses the cache — it goes to the network and returns
the new provider price 200 instead of the cached 100, which is impossible if
the two spellings shared one case-normalized entry. -/
theorem claim4_counterexample :
    (StockApiCors.fetchStockPrice
        (StockApiCors.fetchStockPrice [] "reliance" "NSE" 0
          (.payload ⟨some 100, none⟩)).cache
        "RELIANCE" "NSE" 1000 (.payload ⟨some 200, none⟩)).networkUsed = true
    ∧ (StockApiCors.fetchStockPrice
        (StockApiCors.fetchStockPrice [] "reliance" "NSE" 0
          (.payload ⟨some 100, none⟩)).cache
        "RELIANCE" "NSE" 1000 (.payload ⟨some 200, none⟩)).result = .price 200 := by
  exact ⟨by decide, by decide⟩

/-- C4 amended: cache keys are built from the raw symbol with no case
normalization, so `reliance` and `RELIANCE` on the same exchange use two
distinct cache entries — an insertion under one spelling is invisible to
lookups under the other (only the provider-request symbol is uppercased). -/
theorem claim4_amended :
    (∀ ex : String, StockApiCors.cacheKey "reliance" ex ≠ StockApiCors.cacheKey "RELIANCE" ex)
    ∧ (∀ (cache : StockApiCors.Cache) (ex : String) (price : ℚ) (t now : ℤ),
        StockApiCors.getCachedPrice (StockApiCors.cachePrice cache "reliance" ex price t)
            "RELIANCE" ex now
          = StockApiCors.getCachedPrice cache "RELIANCE" ex now) := by
  refine ⟨StockApiCors.cacheKey_case_ne, ?_⟩
  intro cache ex price t now
  have hk : (StockApiCors.cacheKey "reliance" ex == StockApiCors.cacheKey "RELIANCE" ex)
      = false :=
    beq_eq_false_iff_ne.mpr (StockApiCors.cacheKey_case_ne ex)
  rw [StockApiCors.getCachedPrice, StockApiCors.getCachedPrice]
  have hfind : StockApiCors.cacheFind
      (StockApiCors.cachePrice cache "reliance" ex price t)
      (StockApiCors.cacheKey "RELIANCE" ex)
      = StockApiCors.cacheFind cache (StockApiCors.cacheKey "RELIANCE" ex) := by
    simp [StockApiCors.cacheFind, StockApiCors.cachePrice, List.find?, hk]
  rw [hfind]

/-- C4 amended witness: the key inequality at the NSE exchange. -/
theorem claim4_amended_witness :
    StockApiCors.cacheKey "reliance" "NSE" ≠ StockApiCors.cacheKey "RELIANCE" "NSE" :=
  claim4_amended.1 "NSE"

/-- C8 counterexample: a payload whose live trading price field is present
with value `0` and whose previous close is `100`.  The claim as stated
resolves the present live field (`0`), which is not strictly positive, so it
demands a validation failure; the code expression `meta.regularMarketPrice ||
meta.previousClose` treats the present `0` as falsy, resolves the previous
close instead, and succeeds with price `100`. -/
theorem claim8_counterexample :
    (StockApiCors.fetchStockPrice [] "SBIN" "NSE" 0
        (.payload ⟨some 0, some 100⟩)).result = .price 100 := by
  decide

/-- C8 amended: payload validation resolves the live trading price field only
when it is present and truthy (nonzero), otherwise the prior-session close; the resolved price must be strictly positive, any other payload is a
validation failure, and on success the price is rounded to 2 decimal places
and written to the cache before being returned. -/
theorem claim8_amended :
    (∀ (r : ℚ) (b : Option ℚ), r ≠ 0 → jsOr (some r) b = some r)
    ∧ (∀ b : Option ℚ, jsOr (some 0) b = b ∧ jsOr none b = b)
    ∧ (∀ (cache : StockApiCors.Cache) (symbol exchange : String) (now : ℤ)
          (meta : StockApiCors.ChartMeta) (price : ℚ),
        StockApiCors.getCachedPrice cache symbol exchange now = none →
        jsOr meta.regularMarketPrice meta.previousClose = some price →
        ((0 < price →
            StockApiCors.fetchStockPrice cache symbol exchange now (.payload meta)
              = ⟨.price (round2 price),
                 StockApiCors.cachePrice cache symbol exchange (round2 price) now, true⟩)
          ∧ (price ≤ 0 →
            StockApiCors.fetchStockPrice cache symbol exchange now (.payload meta)
              = ⟨.thrown ⟨symbol, exchange⟩, cache, true⟩)))
    ∧ (∀ (cache : StockApiCors.Cache) (symbol exchange : String) (now : ℤ)
          (meta : StockApiCors.ChartMeta),
        StockApiCors.getCachedPrice cache symbol exchange now = none →
        jsOr meta.regularMarketPrice meta.previousClose = none →
        StockApiCors.fetchStockPrice cache symbol exchange now (.payload meta)
          = ⟨.thrown ⟨symbol, exchange⟩, cache, true⟩) := by
  refine ⟨?_, ?_, ?_, ?_⟩
  · intro r b hr
    simp [jsOr, hr]
  · intro b
    exact ⟨rfl, rfl⟩
  · intro cache symbol exchange now meta price hmiss hj
    constructor
    · intro hpos
      simp only [StockApiCors.fetchStockPrice, hmiss, hj]
      rw [if_pos hpos]
    · intro hnp
      simp only [StockApiCors.fetchStockPrice, hmiss, hj]
      rw [if_neg (not_lt.mpr hnp)]
  · intro cache symbol exchange now meta hmiss hj
    simp only [StockApiCors.fetchStockPrice, hmiss, hj]

/-- C8 amended witness: a fresh fetch on an empty cache with a present,
positive live price of 80 returns the rounded price and caches it. -/
theorem claim8_amended_witness :
    StockApiCors.fetchStockPrice [] "INFY" "NSE" 0 (.payload ⟨some 80, none⟩)
      = ⟨.price (round2 80), StockApiCors.cachePrice [] "INFY" "NSE" (round2 80) 0, true⟩ :=
  (claim8_amended.2.2.1 [] "INFY" "NSE" 0 ⟨some 80, none⟩ 80 (by decide) (by decide)).1
    (by norm_num)

/-- C1 counterexample: in the `js/stock-api.js` variant a transport failure
does not surface an error — with the two `Math.random()` draws at `1/2`,
`fetchStockPrice("RELIANCE", "NSE")` resolves to the fabricated base mock
price 2450.50 for RELIANCE. -/
theorem claim1_counterexample :
    StockApiYahoo.fetchStockPrice "RELIANCE" "NSE" .networkError (1/2) (1/2) = 2450.50 := by
  decide

/-- C1 amended: the `js/stock-api.js` variant falls back to a fabricated mock
price on every failure path, so the claim holds only of the CORS-fixed
variant, whose `fetchStockPrice` surfaces the classified error carrying the
symbol and the exchange on every failing outcome, leaves the cache unchanged
(failures are never cached), and whose error message names both. -/
theorem claim1_amended :
    (∀ (symbol exchange : String) (r1 r2 : ℚ),
        StockApiYahoo.fetchStockPrice symbol exchange .networkError r1 r2
          = StockApiYahoo.getMockPrice symbol r1 r2
        ∧ StockApiYahoo.fetchStockPrice symbol exchange .badStatus r1 r2
          = StockApiYahoo.getMockPrice symbol r1 r2)
    ∧ (∀ (cache : StockApiCors.Cache) (symbol exchange : String) (now : ℤ)
          (outcome : StockApiCors.FetchOutcome),
        StockApiCors.getCachedPrice cache symbol exchange now = none →
        StockApiCors.outcomeFails outcome = true →
        StockApiCors.fetchStockPrice cache symbol exchange now outcome
          = ⟨.thrown ⟨symbol, exchange⟩, cache, true⟩)
    ∧ (∀ symbol exchange : String,
        StockApiCors.quoteErrorMessage ⟨symbol, exchange⟩
          = "Unable to fetch price for " ++ symbol ++ " on " ++ exchange ++
            ". Please verify the symbol is correct and actively traded. " ++
            "If the issue persists, try again in a few moments.") :=
  ⟨fun _ _ _ _ => ⟨rfl, rfl⟩,
   fun cache symbol exchange now outcome =>
     StockApiCors.fetch_fail_classified cache symbol exchange now outcome,
   fun _ _ => rfl⟩

/-- C1 amended witness: a transport failure on an empty cache for WIPRO on
BSE surfaces the classified error for that symbol and exchange and leaves
the cache empty. -/
theorem claim1_amended_witness :
    StockApiCors.fetchStockPrice [] "WIPRO" "BSE" 0 .timeoutOrNetworkError
      = ⟨.thrown ⟨"WIPRO", "BSE"⟩, [], true⟩ :=
  claim1_amended.2.1 [] "WIPRO" "BSE" 0 .timeoutOrNetworkError (by decide) (by decide)

namespace StockApiYahoo

theorem lookup_lower_bound (l : List (String × ℚ)) (c : ℚ)
    (hl : ∀ pair ∈ l, c ≤ pair.2) :
    ∀ k v, l.lookup k = some v → c ≤ v := by
  induction l with
  | nil => intro k v hv; simp [List.lookup] at hv
  | cons a l ih =>
    obtain ⟨ka, va⟩ := a
    intro k v hv
    cases hk : k == ka with
    | true =>
      simp only [List.lookup, hk] at hv
      have hva : c ≤ va := hl (ka, va) (List.mem_cons_self _ _)
      cases hv
      exact hva
    | false =>
      simp only [List.lookup, hk] at hv
      exact ih (fun pair hp => hl pair (List.mem_cons_of_mem _ hp)) k v hv

theorem getMockPrice_pos (symbol : String) (r1 r2 : ℚ) (h1 : 0 ≤ r1) (h2 : 0 ≤ r2) :
    0 < getMockPrice symbol r1 r2 := by
  rw [getMockPrice]
  have hmul : (39/40 : ℚ) ≤ 1 + (r2 - 1/2) * (5/100) := by linarith
  cases hb : mockPrices.lookup (toUpperCase symbol) with
  | some v =>
    have hv : (425.8 : ℚ) ≤ v :=
      lookup_lower_bound mockPrices 425.8 (by decide) _ v hb
    apply round2_pos
    have hprod : (425.8 : ℚ) * (39/40) ≤ v * (1 + (r2 - 1/2) * (5/100)) :=
      mul_le_mul hv hmul (by norm_num) (by linarith)
    calc (1/200 : ℚ) ≤ 425.8 * (39/40) := by norm_num
      _ ≤ v * (1 + (r2 - 1/2) * (5/100)) := hprod
  | none =>
    have hv : (500 : ℚ) ≤ r1 * 1000 + 500 := by nlinarith
    apply round2_pos
    have hprod : (500 : ℚ) * (39/40) ≤ (r1 * 1000 + 500) * (1 + (r2 - 1/2) * (5/100)) :=
      mul_le_mul hv hmul (by norm_num) (by linarith)
    calc (1/200 : ℚ) ≤ 500 * (39/40) := by norm_num
      _ ≤ (r1 * 1000 + 500) * (1 + (r2 - 1/2) * (5/100)) := hprod

end StockApiYahoo

/-- C10 counterexample: the claim quantifies over every provider outcome, but
a chart result whose `regularMarketPrice` is `1/250` (0.004, truthy and
positive) passes the validity check and is then rounded by `toFixed(2)` to
`0` — `fetchStockPrice` resolves `0`, which is not strictly positive, and
the non-positive-price check in `handleFormSubmit` fires on it, so that
check is reachable through this variant. -/
theorem claim10_counterexample :
    StockApiYahoo.fetchStockPrice "TCS" "NSE" (.chartResult (some (1/250))) 0 0 = 0
    ∧ App.handleSubmitPrice
        (.ok (StockApiYahoo.fetchStockPrice "TCS" "NSE" (.chartResult (some (1/250))) 0 0))
      = .invalidPrice := by
  exact ⟨by decide, by decide⟩

/-- C10 amended: `fetchStockPrice` of `js/stock-api.js` never rejects and
always resolves to a nonnegative number — strictly positive on every
mock-fallback path (in particular on network error, bad status, and missing
price, given nonnegative `Math.random()` draws), and equal to the positive
rounded provider price whenever that price is at least `0.005`; the
fetch-failure branch of `handleFormSubmit` is therefore unreachable through
this variant, while a provider price below `0.005` rounds to `0` and keeps
the non-positive-price check reachable. -/
theorem claim10_amended :
    (∀ (symbol exchange : String) (outcome : StockApiYahoo.ApiOutcome) (r1 r2 : ℚ),
        0 ≤ r1 → 0 ≤ r2 →
        0 ≤ StockApiYahoo.fetchStockPrice symbol exchange outcome r1 r2)
    ∧ (∀ (symbol : String) (r1 r2 : ℚ), 0 ≤ r1 → 0 ≤ r2 →
        0 < StockApiYahoo.getMockPrice symbol r1 r2)
    ∧ (∀ (symbol exchange : String) (outcome : StockApiYahoo.ApiOutcome) (r1 r2 : ℚ),
        App.handleSubmitPrice
            (.ok (StockApiYahoo.fetchStockPrice symbol exchange outcome r1 r2))
          ≠ App.SubmitCheck.fetchFailed)
    ∧ (∀ (symbol exchange : String) (r1 r2 p : ℚ), 1/200 ≤ p →
        StockApiYahoo.fetchStockPrice symbol exchange (.chartResult (some p)) r1 r2
          = round2 p
        ∧ 0 < round2 p) := by
  refine ⟨?_, StockApiYahoo.getMockPrice_pos, ?_, ?_⟩
  · intro symbol exchange outcome r1 r2 h1 h2
    cases outcome with
    | chartResult priceField =>
      cases priceField with
      | some p =>
        rw [StockApiYahoo.fetchStockPrice]
        by_cases hp : 0 < p
        · rw [if_pos hp]
          exact round2_nonneg p (le_of_lt hp)
        · rw [if_neg hp]
          exact le_of_lt (StockApiYahoo.getMockPrice_pos symbol r1 r2 h1 h2)
      | none => exact le_of_lt (StockApiYahoo.getMockPrice_pos symbol r1 r2 h1 h2)
    | networkError => exact le_of_lt (StockApiYahoo.getMockPrice_pos symbol r1 r2 h1 h2)
    | badStatus => exact le_of_lt (StockApiYahoo.getMockPrice_pos symbol r1 r2 h1 h2)
    | missingResult => exact le_of_lt (StockApiYahoo.getMockPrice_pos symbol r1 r2 h1 h2)
  · intro symbol exchange outcome r1 r2
    rw [App.handleSubmitPrice]
    split <;> simp
  · intro symbol exchange r1 r2 p hp
    have hpos : 0 < p := lt_of_lt_of_le (by norm_num) hp
    constructor
    · rw [StockApiYahoo.fetchStockPrice, if_pos hpos]
    · exact round2_pos p hp

/-- C10 amended witness: the mock-fallback positivity at draws `0` and `0`
for an unknown symbol. -/
theorem claim10_amended_witness :
    0 < StockApiYahoo.getMockPrice "ZZZUNKNOWN" 0 0 :=
  claim10_amended.2.1 "ZZZUNKNOWN" 0 0 (le_refl 0) (le_refl 0)

namespace StockApiRotate

theorem attemptLoop_cursor_le (routeFails : Nat → Bool) :
    ∀ (n cursor : Nat), cursor ≤ (attemptLoop routeFails n cursor).2.1 := by
  intro n
  induction n with
  | zero => intro cursor; exact le_refl _
  | succ n ih =>
    intro cursor
    rw [attemptLoop]
    by_cases hf : routeFails (getCorsProxy cursor)
    · simp only [hf, if_true]
      exact le_trans (Nat.le_succ cursor) (ih (cursor + 1))
    · simp [hf]

theorem attemptLoop_succ_fail (routeFails : Nat → Bool) (n cursor : Nat)
    (hf : routeFails (getCorsProxy cursor) = true) :
    (attemptLoop routeFails (n + 1) cursor).2.1
      = (attemptLoop routeFails n (cursor + 1)).2.1 := by
  rw [attemptLoop]
  simp only [hf, if_true, switchProxy]

end StockApiRotate

/-- C9: the shared rotation cursor advances on every attempt failure — when
the route under the current cursor fails, the call ends with a strictly
larger cursor, so the first attempt of the next call prefers the next untried
route.  With route 0 persistently broken and route 1 healthy: the first call
(cursor 0) attempts routes `[0, 1]` and succeeds via route 1 leaving the
cursor at 1; the next call (cursor 1) attempts only `[1]`, succeeding on its
first attempt without touching route 0 and without exhausting both routes. -/
theorem claim9_route_rotation :
    (∀ (routeFails : Nat → Bool) (cursor : Nat),
        routeFails (StockApiRotate.getCorsProxy cursor) = true →
        cursor + 1 ≤ (StockApiRotate.fetchStockPrice routeFails cursor).2.1)
    ∧ (StockApiRotate.fetchStockPrice (fun r => decide (r = 0)) 0 = (some 1, 1, [0, 1]))
    ∧ (StockApiRotate.fetchStockPrice (fun r => decide (r = 0)) 1 = (some 1, 1, [1]))
    ∧ ((StockApiRotate.fetchStockPrice (fun r => decide (r = 0)) 1).2.2.length
        < StockApiRotate.CORS_PROXIES.length) := by
  refine ⟨?_, by decide, by decide, by decide⟩
  intro routeFails cursor hf
  show cursor + 1 ≤ (StockApiRotate.attemptLoop routeFails 2 cursor).2.1
  rw [StockApiRotate.attemptLoop_succ_fail routeFails 1 cursor hf]
  exact StockApiRotate.attemptLoop_cursor_le routeFails 1 (cursor + 1)

/-- C9 witness: the cursor strictly advances past a failing route 0 on a call
starting at cursor 0. -/
theorem claim9_route_rotation_witness :
    0 + 1 ≤ (StockApiRotate.fetchStockPrice (fun r => decide (r = 0)) 0).2.1 :=
  claim9_route_rotation.1 (fun r => decide (r = 0)) 0 (by decide)
